import Mathlib

/-!
# PolyIA — verification of the backend orchestration spec

Shallow embedding of the PolyIA system: the local-tutor correction parser,
the auth service (register / login / authenticate), the provider gateway
(`generateLesson`), the owner-scoped lesson/message repository, and the
frontend chat and auth-state logic (`ChatTutor.sendMessage`,
`AuthContext`, `ProtectedRoute`).

The repository ships only the React frontend under `src/`; the FastAPI
backend (`backend/main.py`) is referenced by the README but absent, so the
backend operations are modelled from the spec (each such definition carries
a `Modelled from the spec:` doc comment).  Frontend logic is embedded
directly from the JSX sources.  Text is represented as `List Char`.
-/

namespace PolyIA

/-! ## Text primitives -/

/-- Whitespace test used by trimming, matching `String.trim` semantics. -/
def isWS (c : Char) : Bool := c.isWhitespace

/-- Trim whitespace from the front of a character list. -/
def trimLeft (s : List Char) : List Char := s.dropWhile isWS

/-- Trim whitespace from both ends, as `str.trim()` does. -/
def trim (s : List Char) : List Char :=
  ((s.dropWhile isWS).reverse.dropWhile isWS).reverse

/-- Split `s` at the first occurrence of `delim`: returns the part strictly
before and strictly after that occurrence, or `none` when `delim` does not
occur in `s`. -/
def splitFirst (delim : List Char) : List Char → Option (List Char × List Char)
  | [] => if delim = [] then some ([], []) else none
  | c :: rest =>
    if delim.isPrefixOf (c :: rest) then
      some ([], (c :: rest).drop delim.length)
    else
      match splitFirst delim rest with
      | some (a, b) => some (c :: a, b)
      | none => none

/-- `occursIn delim s` holds when `delim` appears as a contiguous sublist. -/
def occursIn (delim s : List Char) : Prop := ∃ a b, s = a ++ delim ++ b

/-! ### splitFirst lemmas -/

/-- Bridge between the boolean prefix test and the `IsPrefix` relation. -/
theorem isPrefixOf_eq_true_iff {l1 l2 : List Char} :
    l1.isPrefixOf l2 = true ↔ l1 <+: l2 := List.isPrefixOf_iff_prefix

theorem splitFirst_sound {delim s a b : List Char}
    (h : splitFirst delim s = some (a, b)) : s = a ++ delim ++ b := by
  induction s generalizing a with
  | nil =>
    simp only [splitFirst] at h
    split at h
    · next hd =>
      subst hd
      simp only [Option.some.injEq, Prod.mk.injEq] at h
      simp [← h.1, ← h.2]
    · exact absurd h (by simp)
  | cons c rest ih =>
    simp only [splitFirst] at h
    split at h
    · next hpre =>
      simp only [Option.some.injEq, Prod.mk.injEq] at h
      obtain ⟨ha, hb⟩ := h
      subst ha; subst hb
      have hp : delim <+: (c :: rest) := by
        exact isPrefixOf_eq_true_iff.1 hpre
      obtain ⟨t, ht⟩ := hp
      simp [← ht, List.drop_left']
    · next hpre =>
      cases hrec : splitFirst delim rest with
      | none => rw [hrec] at h; exact absurd h (by simp)
      | some p =>
        obtain ⟨a', b'⟩ := p
        rw [hrec] at h
        simp only [Option.some.injEq, Prod.mk.injEq] at h
        obtain ⟨ha, hb⟩ := h
        subst hb
        have := ih hrec
        subst ha
        simp [this]

theorem splitFirst_none {delim s : List Char} (hd : delim ≠ [])
    (h : splitFirst delim s = none) : ¬ occursIn delim s := by
  induction s with
  | nil =>
    rintro ⟨a, b, hab⟩
    have : a = [] ∧ delim ++ b = [] := by
      simpa using hab.symm
    exact hd (List.append_eq_nil.1 this.2).1
  | cons c rest ih =>
    simp only [splitFirst] at h
    split at h
    · exact absurd h (by simp)
    · next hpre =>
      cases hrec : splitFirst delim rest with
      | some p => rw [hrec] at h; obtain ⟨a', b'⟩ := p; exact absurd h (by simp)
      | none =>
        rintro ⟨a, b, hab⟩
        cases a with
        | nil =>
          apply hpre
          apply isPrefixOf_eq_true_iff.2
          exact ⟨b, by simpa using hab.symm⟩
        | cons a0 a' =>
          have hrest : rest = a' ++ delim ++ b := by
            simpa using congrArg List.tail hab
          exact ih hrec ⟨a', b, hrest⟩

theorem splitFirst_leftmost {delim s a b : List Char}
    (h : splitFirst delim s = some (a, b)) :
    ∀ a' b', s = a' ++ delim ++ b' → a.length ≤ a'.length := by
  induction s generalizing a with
  | nil =>
    intro a' b' _
    simp only [splitFirst] at h
    split at h
    · simp only [Option.some.injEq, Prod.mk.injEq] at h
      simp [← h.1]
    · exact absurd h (by simp)
  | cons c rest ih =>
    intro a' b' hab
    simp only [splitFirst] at h
    split at h
    · simp only [Option.some.injEq, Prod.mk.injEq] at h
      simp [← h.1]
    · next hpre =>
      cases hrec : splitFirst delim rest with
      | none => rw [hrec] at h; exact absurd h (by simp)
      | some p =>
        obtain ⟨a₂, b₂⟩ := p
        rw [hrec] at h
        simp only [Option.some.injEq, Prod.mk.injEq] at h
        obtain ⟨ha, hb⟩ := h
        subst hb
        cases a' with
        | nil =>
          exfalso
          apply hpre
          apply isPrefixOf_eq_true_iff.2
          exact ⟨b', by simpa using hab.symm⟩
        | cons a0 a'' =>
          have hrest : rest = a'' ++ delim ++ b' := by
            simpa using congrArg List.tail hab
          have := ih hrec a'' b' hrest
          subst ha
          simpa using Nat.succ_le_succ this

theorem splitFirst_complete {delim s a b : List Char}
    (hs : s = a ++ delim ++ b)
    (hmin : ∀ a' b', s = a' ++ delim ++ b' → a.length ≤ a'.length) :
    splitFirst delim s = some (a, b) := by
  induction a generalizing s with
  | nil =>
    subst hs
    cases hde : delim ++ b with
    | nil =>
      obtain ⟨h1, h2⟩ := List.append_eq_nil.1 hde
      simp [splitFirst, h1, h2]
    | cons c rest =>
      simp only [List.nil_append] at *
      rw [hde]
      simp only [splitFirst]
      rw [if_pos]
      · rw [← hde]
        simp [List.drop_left']
      · apply isPrefixOf_eq_true_iff.2
        exact ⟨b, hde⟩
  | cons a0 a' ih =>
    subst hs
    simp only [List.cons_append, splitFirst]
    rw [if_neg]
    · have hrec : splitFirst delim (a' ++ delim ++ b) = some (a', b) := by
        apply ih rfl
        intro a'' b'' h''
        have := hmin (a0 :: a'') b'' (by simp [h''])
        simpa using this
      simp only [List.append_eq]
      rw [hrec]
    · intro hpre
      have hp := isPrefixOf_eq_true_iff.1 hpre
      obtain ⟨t, ht⟩ := hp
      have hdec : (a0 :: a') ++ delim ++ b = [] ++ delim ++ t := by
        simpa using ht.symm
      have := hmin [] t hdec
      simp at this

/-! ## C1 — correction extraction (Local Tutor Service, step 4) -/

/-- The correction delimiter the prompt instructs the local model to emit. -/
def CORRECTION_DELIM : List Char := "||CORRECTION||".data

/-- Modelled from the spec: the backend Local Tutor Service's parsing step
(`backend/main.py` is not under `src/`).  Parsing policy: look for the
correction delimiter; if present, split into reply (everything before) and
correction (everything after), trimming whitespace; if absent, treat the
entire response as the reply with no correction.  Total on every input. -/
def extractCorrection (raw : List Char) : List Char × Option (List Char) :=
  match splitFirst CORRECTION_DELIM raw with
  | some (a, b) => (trim a, some (trim b))
  | none => (raw, none)

/-! ## Data model and repository

Record fields follow the SQL schema in `README.md` (`usuarios`,
`lecciones`, `mensajes`). -/

/-- A row of `lecciones`. -/
structure Leccion where
  id : Nat
  tema : List Char
  contenido : List Char
  proveedor_ia : List Char
  usuario_id : Nat
deriving DecidableEq

/-- A row of `mensajes`. -/
structure Mensaje where
  id : Nat
  texto_usuario : List Char
  respuesta_ia : List Char
  correccion_ia : Option (List Char)
  usuario_id : Nat
deriving DecidableEq

/-- The lesson/message repository state. -/
structure Store where
  lecciones : List Leccion
  mensajes : List Mensaje
deriving DecidableEq

/-- Modelled from the spec: `GET /api/leccion/lista` — the Repository query
is scoped by the authenticated user's identity (backend not in `src/`). -/
def listLecciones (st : Store) (uid : Nat) : List Leccion :=
  st.lecciones.filter (fun l => l.usuario_id == uid)

/-- Modelled from the spec: message listing scoped to the owning user. -/
def listMensajes (st : Store) (uid : Nat) : List Mensaje :=
  st.mensajes.filter (fun m => m.usuario_id == uid)

/-- Modelled from the spec: persisting a Lesson is a single atomic append,
newest first. -/
def persistLeccion (st : Store) (l : Leccion) : Store :=
  { st with lecciones := l :: st.lecciones }

/-- Modelled from the spec: persisting a Message is a single atomic append. -/
def persistMensaje (st : Store) (m : Mensaje) : Store :=
  { st with mensajes := m :: st.mensajes }

/-! ## Auth Service (modelled from the spec; `backend/main.py` not in `src/`) -/

/-- One-way password hashes, modelled as an injective wrapper: distinct
passwords hash differently and the password is not recoverable by any
operation the model exposes besides verification. -/
inductive PasswordHash where
  | hashOf (pw : List Char)
deriving DecidableEq

/-- Modelled from the spec: one-way hashing at registration. -/
def hashPassword (pw : List Char) : PasswordHash := .hashOf pw

/-- Modelled from the spec: the Credential Store's password-hash
verification primitive. -/
def verifyPassword (pw : List Char) (h : PasswordHash) : Bool :=
  hashPassword pw == h

/-- A row of `usuarios`. -/
structure Usuario where
  id : Nat
  email : List Char
  hashed_password : PasswordHash
  nivel_idioma : List Char
  is_active : Bool
deriving DecidableEq

/-- The Credential Store: user records keyed by email. -/
structure CredStore where
  usuarios : List Usuario
deriving DecidableEq

/-- Look a user up by email (emails are unique in the store). -/
def findByEmail (cs : CredStore) (email : List Char) : Option Usuario :=
  cs.usuarios.find? (fun u => u.email == email)

/-- Modelled from the spec: minimal email well-formedness — a malformed
email is one with no `@`. -/
def validEmail (email : List Char) : Bool := email.contains '@'

/-- The auth failure taxonomy of the spec. -/
inductive AuthErr where
  | validationError
  | duplicateIdentity
  | invalidCredentials
  | invalidToken
  | tokenExpired
deriving DecidableEq

/-- The signed claim set `{user id, issued-at, expiry}`. -/
structure TokenClaims where
  sub : Nat
  iat : Nat
  exp : Nat
deriving DecidableEq

/-- A session token: claims plus a signature.  The MAC is modelled as the
(secret, claims) pair itself — injective and unforgeable in the model. -/
structure SessionToken where
  claims : TokenClaims
  sig : List Char × TokenClaims
deriving DecidableEq

/-- Sign a claim set with the configured secret. -/
def signToken (secret : List Char) (c : TokenClaims) : SessionToken :=
  ⟨c, (secret, c)⟩

/-- Check a token's signature against the configured secret. -/
def verifyToken (secret : List Char) (t : SessionToken) : Bool :=
  t.sig == (secret, t.claims)

/-- Token lifetime: configurable duration, default 60 minutes. -/
def TOKEN_LIFETIME_SECONDS : Nat := 60 * 60

/-- Modelled from the spec: `register(email, password, declaredLevel)` —
`ValidationError` on malformed email or password shorter than 6;
`DuplicateIdentity` when the email is already registered; otherwise
persists the user with a one-way hashed password. -/
def register (cs : CredStore) (email pw nivel : List Char) (newId : Nat) :
    Except AuthErr (CredStore × Usuario) :=
  if ¬ validEmail email then .error .validationError
  else if pw.length < 6 then .error .validationError
  else match findByEmail cs email with
    | some _ => .error .duplicateIdentity
    | none =>
      let u : Usuario := ⟨newId, email, hashPassword pw, nivel, true⟩
      .ok (⟨u :: cs.usuarios⟩, u)

/-- Modelled from the spec: `login(email, password)` — the identical
`InvalidCredentials` error for an unknown email and for a hash mismatch;
on success issues a signed, time-bounded token carrying the user id. -/
def login (cs : CredStore) (secret : List Char) (now : Nat)
    (email pw : List Char) : Except AuthErr (SessionToken × Nat) :=
  match findByEmail cs email with
  | none => .error .invalidCredentials
  | some u =>
    if verifyPassword pw u.hashed_password then
      .ok (signToken secret ⟨u.id, now, now + TOKEN_LIFETIME_SECONDS⟩, u.id)
    else .error .invalidCredentials

/-- Modelled from the spec: `authenticate(token)` — self-contained
verification from the signed claim (it takes no Credential Store at all):
the signature is checked first (standard JWT decoding), then the expiry. -/
def authenticate (secret : List Char) (now : Nat) (t : SessionToken) :
    Except AuthErr Nat :=
  if ¬ verifyToken secret t then .error .invalidToken
  else if t.claims.exp < now then .error .tokenExpired
  else .ok t.claims.sub

/-! ## Provider Gateway (modelled from the spec; provider list from
`PROVIDERS` in `Dashboard.jsx`) -/

/-- The three cloud providers, exactly as enumerated by `PROVIDERS` in
`Dashboard.jsx` (src/unnamed/part_001). -/
def PROVIDERS : List (List Char) :=
  ["openai".data, "anthropic".data, "google".data]

/-- Outcome of one provider HTTP call, supplied as an oracle. -/
inductive ProviderCall where
  | success (text : List Char)
  | timeout
  | rejected
deriving DecidableEq

/-- The `ProviderError` family of the spec, plus input validation. -/
inductive GatewayErr where
  | unknownProvider
  | providerUnconfigured
  | providerTimeout
  | providerRejected
  | providerMalformedResponse
  | validationError
deriving DecidableEq

/-- Modelled from the spec: `generateLesson(topic, providerId,
targetLanguage, level, userIdentity)`.  `configured` says whether a
credential is configured for the selected provider and `call` is the
provider's answer when it is actually called.  The last component counts
the network calls performed, so "fails before any network call" is the
count being `0`. -/
def generateLesson (st : Store) (topic providerId : List Char)
    (configured : Bool) (call : ProviderCall) (uid newId : Nat) :
    Except GatewayErr Leccion × Store × Nat :=
  if ¬ PROVIDERS.contains providerId then (.error .unknownProvider, st, 0)
  else if topic = [] then (.error .validationError, st, 0)
  else if ¬ configured then (.error .providerUnconfigured, st, 0)
  else match call with
    | .timeout => (.error .providerTimeout, st, 1)
    | .rejected => (.error .providerRejected, st, 1)
    | .success text =>
      if text = [] then (.error .providerMalformedResponse, st, 1)
      else
        let l : Leccion := ⟨newId, topic, text, providerId, uid⟩
        (.ok l, persistLeccion st l, 1)

/-! ## Local Tutor Service (modelled from the spec) -/

/-- Result of the liveness probe of the local inference endpoint. -/
inductive ProbeResult where
  | reachable
  | unreachable
deriving DecidableEq

/-- Result of the bounded-timeout inference call, supplied as an oracle. -/
inductive InvokeResult where
  | success (raw : List Char)
  | timeout
  | failure
deriving DecidableEq

/-- The hard-failure outcome of a chat exchange (`LocalModelError`). -/
inductive TutorErr where
  | localModelError
deriving DecidableEq

/-- A chat response: conversational reply plus optional correction. -/
structure ChatReply where
  respuesta : List Char
  correccion : Option (List Char)
deriving DecidableEq

/-- Modelled from the spec and README: the reply returned when the local
model is unreachable, instructing how to start the local server. -/
def ACTIVATION_INSTRUCTIONS : List Char :=
  "El modelo local no está disponible. Instala Ollama, descarga el modelo con ollama pull qwen2.5:3b y ejecuta ollama serve para activarlo.".data

/-- Modelled from the spec: the Local Tutor Service state machine —
probe, prompt, invoke, extract, persist.  Unreachability degrades to a
normal reply with activation instructions and persists nothing; timeout or
non-success inference is `LocalModelError` and persists nothing; success
parses the raw reply with `extractCorrection` and persists one Message
owned by the caller. -/
def chatLocal (st : Store) (probe : ProbeResult) (invoke : InvokeResult)
    (uid newId : Nat) (mensaje : List Char) :
    Except TutorErr ChatReply × Store :=
  match probe with
  | .unreachable => (.ok ⟨ACTIVATION_INSTRUCTIONS, none⟩, st)
  | .reachable =>
    match invoke with
    | .timeout => (.error .localModelError, st)
    | .failure => (.error .localModelError, st)
    | .success raw =>
      let (respuesta, correccion) := extractCorrection raw
      (.ok ⟨respuesta, correccion⟩,
        persistMensaje st ⟨newId, mensaje, respuesta, correccion, uid⟩)

/-! ## Frontend: ChatTutor.sendMessage (embedded from `ChatTutor.jsx`,
src/unnamed/part_000) -/

/-- Message ids in the chat UI: the string `'welcome'`, `Date.now()`
values, or backend `mensaje_id`s. -/
inductive MsgId where
  | str (s : List Char)
  | num (n : Nat)
deriving DecidableEq

/-- A chat bubble, as kept in the `messages` state. -/
structure ChatMsg where
  id : MsgId
  role : List Char
  text : List Char
  correction : Option (List Char)
deriving DecidableEq

/-- The component state touched by `sendMessage`. -/
structure ChatUI where
  messages : List ChatMsg
  input : List Char
  sending : Bool
  error : List Char
deriving DecidableEq

/-- The outcome of `api.post('/api/chat/local', …)`: either response data
(`mensaje_id`, `respuesta`, `correccion`) or a failure whose
`err.response.data.detail` may be absent. -/
inductive ApiChatResp where
  | ok (mensaje_id : Option Nat) (respuesta : List Char)
      (correccion : Option (List Char))
  | err (detail : Option (List Char))
deriving DecidableEq

/-- The fallback error banner text in `ChatTutor.jsx`. -/
def DEFAULT_CHAT_ERROR : List Char :=
  "Error al contactar el tutor. Verifica que el servidor esté activo.".data

/-- JavaScript `x || null` on an optional string: the empty string is
falsy, so it collapses to `null`. -/
def orNull (x : Option (List Char)) : Option (List Char) :=
  match x with
  | some [] => none
  | x => x

/-- Embedded from `sendMessage` in `ChatTutor.jsx`.  `nowId` stands for
`Date.now()` at the moment the optimistic user message is created; `resp`
is the awaited result of the POST.  The boolean component records whether
the POST was issued at all (the empty-input / already-sending guard
returns before any request). -/
def sendMessage (ui : ChatUI) (resp : ApiChatResp) (nowId : Nat) :
    ChatUI × Bool :=
  let text := trim ui.input
  if text = [] ∨ ui.sending then (ui, false)
  else
    let userMsg : ChatMsg := ⟨.num nowId, "user".data, text, none⟩
    let afterSend : List ChatMsg := ui.messages ++ [userMsg]
    match resp with
    | .ok mid respuesta correccion =>
      let tutorMsg : ChatMsg :=
        ⟨.num (mid.getD (nowId + 1)), "tutor".data, respuesta,
          orNull correccion⟩
      ({ messages := afterSend ++ [tutorMsg], input := [],
         sending := false, error := [] }, true)
    | .err detail =>
      let msg := match detail with
        | some d => d
        | none => DEFAULT_CHAT_ERROR
      ({ messages := afterSend.filter (fun m => m.id != MsgId.num nowId),
         input := text, sending := false, error := msg }, true)

/-! ## Frontend: auth state (embedded from `AuthContext.jsx` and
`App.jsx`) -/

/-- The user payload `_persist` stores (`id`, `email`, `nombre`). -/
structure UserInfo where
  id : Nat
  email : List Char
  nombre : List Char
deriving DecidableEq

/-- The auth-relevant frontend state: the stored token, the stored user,
and the axios default `Authorization` header. -/
structure AuthState where
  token : Option (List Char)
  user : Option UserInfo
  authHeader : Option (List Char)
deriving DecidableEq

/-- `isAuthenticated: !!token` from `AuthContext.jsx`. -/
def isAuthenticated (st : AuthState) : Bool := st.token.isSome

/-- Embedded from `_persist` in `AuthContext.jsx`: stores the token and
user and sets `Authorization: Bearer <token>`. -/
def persistAuth (tokenValue : List Char) (userData : UserInfo) : AuthState :=
  { token := some tokenValue, user := some userData,
    authHeader := some ("Bearer ".data ++ tokenValue) }

/-- Embedded from `login` in `AuthContext.jsx`: on a successful POST the
state transitions via `_persist` (the previous state is overwritten). -/
def loginFE (_st : AuthState) (accessToken : List Char) (u : UserInfo) :
    AuthState :=
  persistAuth accessToken u

/-- Embedded from `register` in `AuthContext.jsx`. -/
def registerFE (_st : AuthState) (accessToken : List Char) (u : UserInfo) :
    AuthState :=
  persistAuth accessToken u

/-- Embedded from `logout` in `AuthContext.jsx`: removes the stored token
and user and deletes the `Authorization` header. -/
def logoutFE (_st : AuthState) : AuthState :=
  { token := none, user := none, authHeader := none }

/-- The application routes of `App.jsx`. -/
inductive Route where
  | root
  | login
  | dashboard
  | chat
deriving DecidableEq

/-- What a route renders: the page content or a redirect. -/
inductive Rendered where
  | page (r : Route)
  | redirect (r : Route)
deriving DecidableEq

/-- Embedded from `ProtectedRoute` in `App.jsx`: render the children when
authenticated, else `<Navigate to="/login" replace />`. -/
def protectedRoute (st : AuthState) (content : Route) : Rendered :=
  if isAuthenticated st then .page content else .redirect .login

/-- The auth-state invariant of claim C10: `isAuthenticated` holds exactly
when a token is present, and the `Authorization` header is set exactly
when a token is present. -/
def authInvariant (st : AuthState) : Prop :=
  (isAuthenticated st = st.token.isSome) ∧
  (st.authHeader.isSome = st.token.isSome)

/-! # Claim theorems -/

/-- **C1** — Correction extraction is a total function on raw model
responses: for every response containing the correction delimiter (split
at its leftmost occurrence), the reply is the whitespace-trimmed text
before the delimiter and the correction the whitespace-trimmed text after
it; for every response not containing the delimiter, the reply is the full
text and the correction is empty.  `extractCorrection` is a Lean function,
hence defined (never failing) on every input string. -/
theorem extraction_total_spec (raw : List Char) :
    (∀ a b, raw = a ++ CORRECTION_DELIM ++ b →
      (∀ a' b', raw = a' ++ CORRECTION_DELIM ++ b' → a.length ≤ a'.length) →
      extractCorrection raw = (trim a, some (trim b))) ∧
    (¬ occursIn CORRECTION_DELIM raw →
      extractCorrection raw = (raw, none)) := by
  constructor
  · intro a b hab hmin
    have h := splitFirst_complete hab hmin
    unfold extractCorrection
    rw [h]
  · intro hno
    unfold extractCorrection
    cases hs : splitFirst CORRECTION_DELIM raw with
    | none => rfl
    | some p =>
      obtain ⟨a, b⟩ := p
      exact absurd ⟨a, b, splitFirst_sound hs⟩ hno

/-- The reply part of the spec's worked example. -/
def exBefore : List Char := "Eso está muy bien. ".data

/-- The correction part of the spec's worked example. -/
def exAfter : List Char := " Debiste usar soy en vez de estoy.".data

/-- The spec's worked example of a raw local-model response. -/
def exRaw : List Char := exBefore ++ CORRECTION_DELIM ++ exAfter

/-- Witness for C1 at the spec's worked example. -/
theorem extraction_total_spec_witness :
    extractCorrection exRaw =
      ("Eso está muy bien.".data,
        some ("Debiste usar soy en vez de estoy.".data)) := by
  have hsplit : splitFirst CORRECTION_DELIM exRaw = some (exBefore, exAfter) := by
    decide
  have h := (extraction_total_spec exRaw).1 exBefore exAfter rfl
    (splitFirst_leftmost hsplit)
  rw [h]
  decide

/-- **C2** — Repository listing is owner-scoped: for distinct users A and
B, every row listed as A is owned by A and none is owned by B; a persisted
Lesson/Message owned by A is reproduced verbatim at the head of A's
listing and is invisible to B's listing. -/
theorem repository_owner_scoping (st : Store) (uidA uidB : Nat)
    (hne : uidA ≠ uidB) (l : Leccion) (m : Mensaje) :
    (∀ x ∈ listLecciones st uidA, x.usuario_id = uidA ∧ x.usuario_id ≠ uidB) ∧
    (∀ x ∈ listMensajes st uidA, x.usuario_id = uidA ∧ x.usuario_id ≠ uidB) ∧
    (l.usuario_id = uidA →
      listLecciones (persistLeccion st l) uidA = l :: listLecciones st uidA ∧
      listLecciones (persistLeccion st l) uidB = listLecciones st uidB) ∧
    (m.usuario_id = uidA →
      listMensajes (persistMensaje st m) uidA = m :: listMensajes st uidA ∧
      listMensajes (persistMensaje st m) uidB = listMensajes st uidB) := by
  refine ⟨?_, ?_, ?_, ?_⟩
  · intro x hx
    have hmem := List.mem_filter.1 hx
    have hx1 : x.usuario_id = uidA := by
      have := hmem.2
      simpa using this
    exact ⟨hx1, by rw [hx1]; exact hne⟩
  · intro x hx
    have hmem := List.mem_filter.1 hx
    have hx1 : x.usuario_id = uidA := by
      have := hmem.2
      simpa using this
    exact ⟨hx1, by rw [hx1]; exact hne⟩
  · intro hl
    constructor
    · simp [listLecciones, persistLeccion, List.filter_cons, hl]
    · have hnb : (l.usuario_id == uidB) = false := by
        simp [hl]
        exact hne
      simp [listLecciones, persistLeccion, List.filter_cons, hnb]
  · intro hm
    constructor
    · simp [listMensajes, persistMensaje, List.filter_cons, hm]
    · have hnb : (m.usuario_id == uidB) = false := by
        simp [hm]
        exact hne
      simp [listMensajes, persistMensaje, List.filter_cons, hnb]

/-- A lesson owned by user 1, for concrete witnesses. -/
def demoLeccion : Leccion :=
  ⟨1, "saludos".data, "Lección de saludos…".data, "openai".data, 1⟩

/-- A lesson owned by user 2, for concrete witnesses. -/
def demoLeccionB : Leccion :=
  ⟨2, "comida".data, "Lección de comida…".data, "google".data, 2⟩

/-- A message owned by user 1, for concrete witnesses. -/
def demoMensaje : Mensaje :=
  ⟨1, "hola".data, "hello".data, none, 1⟩

/-- A message owned by user 2, for concrete witnesses. -/
def demoMensajeB : Mensaje :=
  ⟨2, "adios".data, "goodbye".data, some "bye".data, 2⟩

/-- A repository holding rows of two distinct users. -/
def demoStore : Store := ⟨[demoLeccionB], [demoMensajeB]⟩

/-- Witness for C2: persisting user 1's lesson into a store holding user
2's rows, then listing as each user. -/
theorem repository_owner_scoping_witness :
    listLecciones (persistLeccion demoStore demoLeccion) 1 =
      demoLeccion :: listLecciones demoStore 1 ∧
    listLecciones (persistLeccion demoStore demoLeccion) 2 =
      listLecciones demoStore 2 := by
  exact (repository_owner_scoping demoStore 1 2 (by decide) demoLeccion
    demoMensaje).2.2.1 (by decide)

/-- **C3** — When the probe reports the local inference endpoint
unreachable, the chat operation returns a normal (non-error) result whose
reply is the non-empty activation instructions, with no correction, and
the store is unchanged (no Message persisted). -/
theorem chat_unavailable_graceful (st : Store) (invoke : InvokeResult)
    (uid newId : Nat) (mensaje : List Char) :
    chatLocal st .unreachable invoke uid newId mensaje =
      (.ok ⟨ACTIVATION_INSTRUCTIONS, none⟩, st) ∧
    ACTIVATION_INSTRUCTIONS ≠ [] := ⟨rfl, by decide⟩

/-- **C4** — On every failure path of a chat exchange (unreachable model,
invocation timeout, non-success invocation) the store after the operation
equals the store before it, and every error outcome of `generateLesson`
likewise leaves the store untouched: writes are all-or-nothing. -/
theorem failure_paths_atomic (st : Store) (uid newId : Nat)
    (mensaje topic providerId : List Char) (configured : Bool)
    (invoke : InvokeResult) (call : ProviderCall) :
    (chatLocal st .unreachable invoke uid newId mensaje).2 = st ∧
    (chatLocal st .reachable .timeout uid newId mensaje).2 = st ∧
    (chatLocal st .reachable .failure uid newId mensaje).2 = st ∧
    (∀ e, (chatLocal st .reachable invoke uid newId mensaje).1 = .error e →
      (chatLocal st .reachable invoke uid newId mensaje).2 = st) ∧
    (∀ e, (generateLesson st topic providerId configured call uid newId).1 =
        .error e →
      (generateLesson st topic providerId configured call uid newId).2.1 =
        st) := by
  refine ⟨rfl, rfl, rfl, ?_, ?_⟩
  · intro e he
    cases invoke with
    | timeout => rfl
    | failure => rfl
    | success raw => simp [chatLocal] at he
  · intro e he
    by_cases h1 : providerId ∈ PROVIDERS
    · by_cases h2 : topic = []
      · simp [generateLesson, h1, h2]
      · by_cases h3 : configured
        · cases call with
          | timeout => simp [generateLesson, h1, h2, h3]
          | rejected => simp [generateLesson, h1, h2, h3]
          | success text =>
            by_cases h4 : text = []
            · simp [generateLesson, h1, h2, h3, h4]
            · simp [generateLesson, h1, h2, h3, h4] at he
        · simp [generateLesson, h1, h2, h3]
    · simp [generateLesson, h1]

/-- Witness for C4 at a concrete failing input: an unknown provider id
leaves the concrete store untouched. -/
theorem failure_paths_atomic_witness :
    (generateLesson demoStore "saludos".data "deepseek".data true
      (.success "hola".data) 1 10).2.1 = demoStore := by
  exact (failure_paths_atomic demoStore 1 10 "hola".data "saludos".data
    "deepseek".data true .timeout (.success "hola".data)).2.2.2.2
    .unknownProvider rfl

/-- **C5** — For every providerId outside `{openai, anthropic, google}`,
`generateLesson` fails with `UnknownProvider` and performs zero network
calls; for a providerId in the set with the provider returning non-empty
text, it yields and persists a Lesson owned by the caller with matching
providerId, topic and content. -/
theorem generateLesson_provider_gate (st : Store)
    (topic providerId text : List Char) (configured : Bool)
    (call : ProviderCall) (uid newId : Nat) :
    (PROVIDERS.contains providerId = false →
      generateLesson st topic providerId configured call uid newId =
        (.error .unknownProvider, st, 0)) ∧
    (PROVIDERS.contains providerId = true → topic ≠ [] → text ≠ [] →
      ∃ l : Leccion,
        generateLesson st topic providerId true (.success text) uid newId =
          (.ok l, persistLeccion st l, 1) ∧
        l.usuario_id = uid ∧ l.proveedor_ia = providerId ∧
        l.tema = topic ∧ l.contenido = text) := by
  constructor
  · intro h
    have hmem : providerId ∉ PROVIDERS := by simpa using h
    simp [generateLesson, hmem]
  · intro h1 h2 h3
    have hmem : providerId ∈ PROVIDERS := by simpa using h1
    refine ⟨⟨newId, topic, text, providerId, uid⟩, ?_, rfl, rfl, rfl, rfl⟩
    simp [generateLesson, hmem, h2, h3]

/-- Witness for C5: a concrete unknown provider fails without a network
call, and a concrete `openai` generation persists an owned lesson. -/
theorem generateLesson_provider_gate_witness :
    generateLesson demoStore "saludos".data "deepseek".data true
      (.success "hola".data) 1 10 =
      (.error .unknownProvider, demoStore, 0) ∧
    ∃ l : Leccion,
      generateLesson demoStore "saludos".data "openai".data true
        (.success "Lección sobre saludos".data) 1 10 =
        (.ok l, persistLeccion demoStore l, 1) ∧
      l.usuario_id = 1 ∧ l.proveedor_ia = "openai".data ∧
      l.tema = "saludos".data ∧ l.contenido = "Lección sobre saludos".data := by
  constructor
  · exact (generateLesson_provider_gate demoStore "saludos".data
      "deepseek".data "hola".data true (.success "hola".data) 1 10).1
      (by decide)
  · exact (generateLesson_provider_gate demoStore "saludos".data
      "openai".data "Lección sobre saludos".data true
      (.success "Lección sobre saludos".data) 1 10).2
      (by decide) (by decide) (by decide)

/-- **C6** — For a valid email not yet registered and a password of at
least 6 characters, `register` succeeds, and a second `register` with the
same email (and a valid password) fails with `DuplicateIdentity`; a
password shorter than 6 characters or a malformed email fails with
`ValidationError`. -/
theorem register_unique_and_validated (cs : CredStore)
    (email pw nivel : List Char) (newId : Nat) :
    (validEmail email = true → 6 ≤ pw.length → findByEmail cs email = none →
      ∃ cs2 u, register cs email pw nivel newId = .ok (cs2, u) ∧
        u.email = email ∧ u.hashed_password = hashPassword pw ∧
        ∀ pw2 nivel2 newId2, 6 ≤ pw2.length →
          register cs2 email pw2 nivel2 newId2 =
            .error .duplicateIdentity) ∧
    (pw.length < 6 → register cs email pw nivel newId =
      .error .validationError) ∧
    (validEmail email = false → register cs email pw nivel newId =
      .error .validationError) := by
  refine ⟨?_, ?_, ?_⟩
  · intro hv hl hf
    have hnl : ¬ pw.length < 6 := by omega
    refine ⟨⟨⟨newId, email, hashPassword pw, nivel, true⟩ :: cs.usuarios⟩,
      ⟨newId, email, hashPassword pw, nivel, true⟩, ?_, rfl, rfl, ?_⟩
    · simp [register, hv, hnl, hf]
    · intro pw2 nivel2 newId2 hl2
      have hnl2 : ¬ pw2.length < 6 := by omega
      have hfind : findByEmail
          ⟨⟨newId, email, hashPassword pw, nivel, true⟩ :: cs.usuarios⟩ email =
          some ⟨newId, email, hashPassword pw, nivel, true⟩ := by
        simp [findByEmail, List.find?]
      simp [register, hv, hnl2, hfind]
  · intro hl
    by_cases hv : validEmail email
    · simp [register, hv, hl]
    · simp [register, hv]
  · intro hv
    simp [register, hv]

/-- Witness for C6 at a concrete store and credentials. -/
theorem register_unique_and_validated_witness :
    ∃ cs2 u, register ⟨[]⟩ "ana@mail.com".data "secreto".data
        "principiante".data 1 = .ok (cs2, u) ∧
      u.email = "ana@mail.com".data ∧
      u.hashed_password = hashPassword "secreto".data ∧
      ∀ pw2 nivel2 newId2, 6 ≤ pw2.length →
        register cs2 "ana@mail.com".data pw2 nivel2 newId2 =
          .error .duplicateIdentity := by
  exact (register_unique_and_validated ⟨[]⟩ "ana@mail.com".data
    "secreto".data "principiante".data 1).1 (by decide) (by decide) rfl

/-- **C7 (amended)** — `authenticate` classifies token failures: a token
whose signature verifies against the configured secret but whose expiry is
in the past fails with `TokenExpired`; a token signed with a secret
different from the configured one fails with `InvalidToken`; and a token
issued by a successful `login` resolves under `authenticate` to the same
user id — `authenticate` takes no Credential Store at all, so the
resolution consults none. -/
theorem authenticate_classification (cs : CredStore)
    (secret secret2 email pw : List Char) (now : Nat) (t : SessionToken) :
    (verifyToken secret t = true → t.claims.exp < now →
      authenticate secret now t = .error .tokenExpired) ∧
    (secret2 ≠ secret → ∀ c : TokenClaims,
      authenticate secret now (signToken secret2 c) =
        .error .invalidToken) ∧
    (∀ tok uid, login cs secret now email pw = .ok (tok, uid) →
      authenticate secret now tok = .ok uid) := by
  refine ⟨?_, ?_, ?_⟩
  · intro hv he
    simp [authenticate, hv, he]
  · intro hne c
    have hv : verifyToken secret (signToken secret2 c) = false := by
      simp [verifyToken, signToken]
      intro h
      exact absurd h hne
    simp [authenticate, hv]
  · intro tok uid hlogin
    unfold login at hlogin
    cases hf : findByEmail cs email with
    | none => rw [hf] at hlogin; exact absurd hlogin (by simp)
    | some u =>
      rw [hf] at hlogin
      by_cases hpw : verifyPassword pw u.hashed_password
      · simp only [hpw, if_true, Except.ok.injEq, Prod.mk.injEq] at hlogin
        obtain ⟨htok, huid⟩ := hlogin
        subst htok; subst huid
        have hexp : ¬ (now + TOKEN_LIFETIME_SECONDS < now) := by omega
        simp [authenticate, verifyToken, signToken, hexp]
      · simp [hpw] at hlogin

/-- Witness for C7 (amended): a concrete expired-but-well-signed token, a
concrete foreign-signed token, and a concrete successful login. -/
theorem authenticate_classification_witness :
    authenticate "secreto-servidor".data 9999
        (signToken "secreto-servidor".data ⟨7, 0, 5⟩) =
      .error .tokenExpired ∧
    authenticate "secreto-servidor".data 0
        (signToken "otro-secreto".data ⟨7, 0, 5⟩) =
      .error .invalidToken ∧
    ∀ tok uid,
      login ⟨[⟨7, "ana@mail.com".data, hashPassword "secreto".data,
          "principiante".data, true⟩]⟩ "secreto-servidor".data 0
        "ana@mail.com".data "secreto".data = .ok (tok, uid) →
      authenticate "secreto-servidor".data 0 tok = .ok uid := by
  refine ⟨?_, ?_, ?_⟩
  · exact (authenticate_classification ⟨[]⟩ "secreto-servidor".data
      "otro".data [] [] 9999
      (signToken "secreto-servidor".data ⟨7, 0, 5⟩)).1 (by decide)
      (by decide)
  · exact (authenticate_classification ⟨[]⟩ "secreto-servidor".data
      "otro-secreto".data [] [] 0
      (signToken "otro-secreto".data ⟨7, 0, 5⟩)).2.1 (by decide) ⟨7, 0, 5⟩
  · exact (authenticate_classification
      ⟨[⟨7, "ana@mail.com".data, hashPassword "secreto".data,
        "principiante".data, true⟩]⟩ "secreto-servidor".data
      "unused".data "ana@mail.com".data "secreto".data 0
      ⟨⟨0, 0, 0⟩, ([], ⟨0, 0, 0⟩)⟩).2.2

/-- A token that is both expired and signed with a foreign secret. -/
def staleForeignToken : SessionToken := signToken "otro-secreto".data ⟨7, 0, 5⟩

/-- **C7 counterexample** — the claim's two universal clauses conflict: a
token that is both expired (expiry 5 < now 100) and signed with a
different secret fails with `InvalidToken`, not `TokenExpired`, because
the signature is checked before the expiry; so "every token whose expiry
is in the past fails with TokenExpired" is false as stated. -/
theorem authenticate_classification_counterexample :
    staleForeignToken.claims.exp < 100 ∧
    "otro-secreto".data ≠ "secreto-servidor".data ∧
    authenticate "secreto-servidor".data 100 staleForeignToken =
      .error .invalidToken ∧
    authenticate "secreto-servidor".data 100 staleForeignToken ≠
      .error .tokenExpired := by
  refine ⟨by decide, by decide, rfl, ?_⟩
  intro h
  rw [show authenticate "secreto-servidor".data 100 staleForeignToken =
      .error .invalidToken from rfl] at h
  exact absurd (Except.error.inj h) (by decide)

/-- Differ in exactly one position (same length, one index disagrees,
every other index agrees). -/
def singleCharMutation (pw pwm : List Char) : Prop :=
  pw.length = pwm.length ∧
  ∃ i, i < pw.length ∧ pw[i]? ≠ pwm[i]? ∧
    ∀ j, j < pw.length → j ≠ i → pw[j]? = pwm[j]?

/-- A single-character mutation yields a different string. -/
theorem singleCharMutation_ne {pw pwm : List Char}
    (h : singleCharMutation pw pwm) : pwm ≠ pw := by
  obtain ⟨_, i, _, hne, _⟩ := h
  intro he
  subst he
  exact hne rfl

/-- **C8** — `login` is failure-indistinguishable across causes: an
unknown email and a known email with a non-matching password hash (in
particular any single-character mutation of the correct password) all fail
with the identical `InvalidCredentials` error, and the two failing runs
produce literally the same result. -/
theorem login_failure_indistinguishable (cs : CredStore)
    (secret : List Char) (now : Nat) (email email2 pw pw2 pwm : List Char)
    (u : Usuario) :
    (findByEmail cs email = none →
      login cs secret now email pw = .error .invalidCredentials) ∧
    (findByEmail cs email2 = some u →
      verifyPassword pw2 u.hashed_password = false →
      login cs secret now email2 pw2 = .error .invalidCredentials) ∧
    (findByEmail cs email = none → findByEmail cs email2 = some u →
      verifyPassword pw2 u.hashed_password = false →
      login cs secret now email pw = login cs secret now email2 pw2) ∧
    (findByEmail cs email2 = some u →
      u.hashed_password = hashPassword pw →
      singleCharMutation pw pwm →
      login cs secret now email2 pwm = .error .invalidCredentials) := by
  have hunknown : findByEmail cs email = none →
      login cs secret now email pw = .error .invalidCredentials := by
    intro hf
    simp [login, hf]
  have hmismatch : ∀ pwx : List Char, findByEmail cs email2 = some u →
      verifyPassword pwx u.hashed_password = false →
      login cs secret now email2 pwx = .error .invalidCredentials := by
    intro pwx hf hv
    simp [login, hf, hv]
  refine ⟨hunknown, hmismatch pw2, ?_, ?_⟩
  · intro hf1 hf2 hv
    rw [hunknown hf1, hmismatch pw2 hf2 hv]
  · intro hf hh hmut
    apply hmismatch pwm hf
    rw [hh]
    have hne : pwm ≠ pw := singleCharMutation_ne hmut
    simp [verifyPassword, hashPassword]
    exact hne

/-- Witness for C8: a concrete store where the unknown-email run and the
mutated-password run both yield `InvalidCredentials`, indistinguishably. -/
theorem login_failure_indistinguishable_witness :
    login ⟨[⟨7, "ana@mail.com".data, hashPassword "secreto".data,
        "principiante".data, true⟩]⟩ "clave".data 0
      "eva@mail.com".data "secreto".data = .error .invalidCredentials ∧
    login ⟨[⟨7, "ana@mail.com".data, hashPassword "secreto".data,
        "principiante".data, true⟩]⟩ "clave".data 0
      "ana@mail.com".data "Secreto".data = .error .invalidCredentials := by
  constructor
  · exact (login_failure_indistinguishable
      ⟨[⟨7, "ana@mail.com".data, hashPassword "secreto".data,
        "principiante".data, true⟩]⟩ "clave".data 0
      "eva@mail.com".data "ana@mail.com".data "secreto".data
      "secreto".data "Secreto".data
      ⟨7, "ana@mail.com".data, hashPassword "secreto".data,
        "principiante".data, true⟩).1 (by decide)
  · exact (login_failure_indistinguishable
      ⟨[⟨7, "ana@mail.com".data, hashPassword "secreto".data,
        "principiante".data, true⟩]⟩ "clave".data 0
      "eva@mail.com".data "ana@mail.com".data "secreto".data
      "secreto".data "Secreto".data
      ⟨7, "ana@mail.com".data, hashPassword "secreto".data,
        "principiante".data, true⟩).2.2.2 (by decide) rfl
      ⟨by decide, 0, by decide, by decide, by decide⟩

/-- **C9** — `ChatTutor.sendMessage`: with empty/whitespace-only input or
while a request is in flight, no request is performed and the state is
unchanged.  Otherwise (when no existing bubble already carries the fresh
`Date.now()` id) a failed request restores the pre-send UI state — the
optimistic user message is removed and the submitted text is restored to
the input field — while a successful request appends exactly one user and
one tutor message. -/
theorem sendMessage_behavior (ui : ChatUI) (resp : ApiChatResp)
    (nowId : Nat) :
    ((trim ui.input = [] ∨ ui.sending = true) →
      sendMessage ui resp nowId = (ui, false)) ∧
    (trim ui.input ≠ [] → ui.sending = false →
      (∀ m ∈ ui.messages, m.id ≠ .num nowId) →
      ((∀ detail, resp = .err detail →
          (sendMessage ui resp nowId).1.messages = ui.messages ∧
          (sendMessage ui resp nowId).1.input = trim ui.input ∧
          (sendMessage ui resp nowId).2 = true) ∧
       (∀ mid r c, resp = .ok mid r c →
          (sendMessage ui resp nowId).1.messages =
            ui.messages ++
              [⟨.num nowId, "user".data, trim ui.input, none⟩,
               ⟨.num (mid.getD (nowId + 1)), "tutor".data, r, orNull c⟩] ∧
          (sendMessage ui resp nowId).2 = true))) := by
  constructor
  · intro hguard
    rcases hguard with hempty | hsending
    · simp [sendMessage, hempty]
    · simp [sendMessage, hsending]
  · intro hne hsend hfresh
    have hcond : ¬ (trim ui.input = [] ∨ ui.sending = true) := by
      rw [hsend]
      simp [hne]
    constructor
    · intro detail hresp
      subst hresp
      have hfilter :
          (ui.messages ++
            [(⟨.num nowId, "user".data, trim ui.input, none⟩ : ChatMsg)]).filter
              (fun m => m.id != MsgId.num nowId) = ui.messages := by
        rw [List.filter_append]
        have h1 : ui.messages.filter (fun m => m.id != MsgId.num nowId) =
            ui.messages := by
          apply List.filter_eq_self.mpr
          intro m hm
          simpa using hfresh m hm
        have h2 : [(⟨.num nowId, "user".data, trim ui.input, none⟩ :
            ChatMsg)].filter (fun m => m.id != MsgId.num nowId) = [] := by
          simp
        rw [h1, h2, List.append_nil]
      refine ⟨?_, ?_, ?_⟩
      · simp only [sendMessage, if_neg hcond]
        exact hfilter
      · simp only [sendMessage, if_neg hcond]
      · simp only [sendMessage, if_neg hcond]
    · intro mid r c hresp
      subst hresp
      constructor
      · simp [sendMessage, if_neg hcond]
      · simp [sendMessage, if_neg hcond]

/-- The welcome bubble of a fresh chat. -/
def welcomeMsg : ChatMsg :=
  ⟨.str "welcome".data, "tutor".data,
    "¡Hola! Soy tu tutor de inglés.".data, none⟩

/-- A concrete pre-send chat state: welcome bubble, input with
surrounding whitespace, no request in flight. -/
def demoChatUI : ChatUI := ⟨[welcomeMsg], " hola ".data, false, []⟩

/-- Witness for C9: a failed request on the concrete state leaves the
conversation as it was and restores the submitted text. -/
theorem sendMessage_behavior_witness :
    (sendMessage demoChatUI (.err none) 5).1.messages =
      demoChatUI.messages ∧
    (sendMessage demoChatUI (.err none) 5).1.input = "hola".data ∧
    (sendMessage demoChatUI (.err none) 5).2 = true := by
  have h := ((sendMessage_behavior demoChatUI (.err none) 5).2
    (by decide) rfl (by decide)).1 none rfl
  refine ⟨h.1, ?_, h.2.2⟩
  rw [h.2.1]
  decide

/-- **C10** — The frontend auth-state invariant (`isAuthenticated` holds
exactly when a token is present; the axios `Authorization` header is set
exactly when a token is present) is preserved by login, register and
logout; logout clears token, user and header, and afterwards every render
of a protected route (`/dashboard`, `/chat`) redirects to `/login` instead
of rendering the protected content. -/
theorem auth_state_invariant_holds (st : AuthState) (tok : List Char)
    (u : UserInfo) :
    authInvariant (loginFE st tok u) ∧
    authInvariant (registerFE st tok u) ∧
    authInvariant (logoutFE st) ∧
    (logoutFE st).token = none ∧ (logoutFE st).user = none ∧
    (logoutFE st).authHeader = none ∧
    protectedRoute (logoutFE st) .dashboard = .redirect .login ∧
    protectedRoute (logoutFE st) .chat = .redirect .login := by
  refine ⟨⟨rfl, rfl⟩, ⟨rfl, rfl⟩, ⟨rfl, rfl⟩, rfl, rfl, rfl, ?_, ?_⟩
  · simp [protectedRoute, isAuthenticated, logoutFE]
  · simp [protectedRoute, isAuthenticated, logoutFE]

end PolyIA
